import Mathlib

/-!
# MissedTask frontend — conversation reconciler, shallow embedding

This file embeds the client-side chat reconciliation logic of the MissedTask
frontend and proves the specified properties about it.

Embedded code:
* the `App` component's `loadConversationMessages`, `sendMessageAPI`,
  `connectWebSocket` message handler, `showToast`, `addNotification` and the
  floating chat button's open/close handler;
* the `Chat` component's `loadMessages`, its WebSocket `onmessage` chaining in
  `connectSocket`, and the `EnhancedChat` component's `addEventListener`
  registration.

Conventions of the embedding:
* React functional state updates (`setX(prev => ...)`) are applied
  synchronously, in program order, to an explicit state record;
* `localStorage` is a total function `String → Option String`;
* JavaScript `||` fallback chains on possibly-absent strings are modelled by
  `jsOr` (`none` and the empty string are falsy);
* impure clock reads (`Date.now()`, `new Date().toISOString()`) are passed in
  as explicit parameters;
* JavaScript string comparison `>` on message identifiers is the
  lexicographic order on `String`.
-/

namespace MissedTask

/-- Truthiness of a JavaScript string-or-null value: `null`/`undefined` and
the empty string are falsy. -/
def jsTruthy (a : Option String) : Bool :=
  match a with
  | some s => if s = "" then false else true
  | none => false

/-- JavaScript `a || b` on string-or-absent values: keeps `a` when it is
present and non-empty, otherwise falls through to `b`. -/
def jsOr (a b : Option String) : Option String :=
  match a with
  | some s => if s = "" then b else some s
  | none => b

/-- Lexicographic strict comparison of character lists, the order JavaScript
uses for `<`/`>` on strings. -/
def ltChars : List Char → List Char → Bool
  | [], [] => false
  | [], _ :: _ => true
  | _ :: _, [] => false
  | a :: as, b :: bs =>
    if a < b then true
    else if b < a then false
    else ltChars as bs

/-- JavaScript `a < b` on strings (so `b > a`). -/
def jsLt (a b : String) : Bool := ltChars a.data b.data

/-- JavaScript `s.length > n ? s.substring(0, n) + '...' : s`. -/
def truncateAt (n : Nat) (s : String) : String :=
  if n < s.length then String.take s n ++ "..." else s

/-- Nested `author` object a raw backend message may carry. -/
structure Author where
  id : Option String := none
  name : Option String := none
  avatar : Option String := none
  deriving Repr, DecidableEq

/-- A raw message as returned by the backend REST API; the author may be
labelled `sender_*`, `author_*` or nested under `author`. -/
structure RawMsg where
  id : String
  content : String
  created_at : Option String := none
  sender_name : Option String := none
  author_name : Option String := none
  sender_id : Option String := none
  author_id : Option String := none
  sender_avatar : Option String := none
  author_avatar : Option String := none
  author : Option Author := none
  deriving Repr, DecidableEq

/-- The local message shape produced by `loadConversationMessages`. -/
structure Msg where
  id : String
  user : String
  userId : String
  message : String
  timestamp : Option String
  avatar : String
  deriving Repr, DecidableEq

/-- The `msg => formatted` mapping inside `loadConversationMessages`:
`sender_* || author_* || author?.* || default` for each display field. -/
def formatMessage (msg : RawMsg) : Msg :=
  { id := msg.id
    user := (jsOr msg.sender_name (jsOr msg.author_name
      (jsOr (msg.author.bind Author.name) (some "Unknown")))).getD "Unknown"
    userId := (jsOr msg.sender_id (jsOr msg.author_id
      (jsOr (msg.author.bind Author.id) (some "")))).getD ""
    message := msg.content
    timestamp := msg.created_at
    avatar := (jsOr msg.sender_avatar (jsOr msg.author_avatar
      (jsOr (msg.author.bind Author.avatar) (some "U")))).getD "U" }

/-- The `data` payload attached to a notification.  The poll path writes
`conversationId`/`messageId`, the WebSocket path writes
`message_id`/`sender_id`/`conversation_id`. -/
structure NotifData where
  conversationId : Option String := none
  messageId : Option String := none
  message_id : Option String := none
  sender_id : Option String := none
  conversation_id : Option String := none
  deriving Repr, DecidableEq

/-- The app's `Notification` record. -/
structure Notification where
  id : String
  type : String
  title : String
  message : String
  read : Bool
  timestamp : String
  data : NotifData := {}
  deriving Repr, DecidableEq

/-- The app's `ToastMessage` record. -/
structure ToastMessage where
  id : String
  type : String
  title : String
  message : String
  deriving Repr, DecidableEq

/-- The app's `User` record (the fields the reconciler reads). -/
structure User where
  id : String
  name : String
  email : String := ""
  avatar : String := ""
  is_online : Option Bool := none
  deriving Repr, DecidableEq

/-- `localStorage.setItem`. -/
def setItem (store : String → Option String) (k v : String) :
    String → Option String :=
  fun k2 => if k2 = k then some v else store k2

/-- The `App` component state touched by the reconciler. -/
structure AppState where
  user : Option User := none
  users : List User := []
  chatMessages : List Msg := []
  conversations : String → Option (List Msg) := fun _ => none
  notifications : List Notification := []
  unreadMessagesCount : Nat := 0
  showChatPopup : Bool := false
  toasts : List ToastMessage := []
  localStorage : String → Option String := fun _ => none

/-- `showToast`: appends a toast (its id is the `Date.now()` string). -/
def showToast (nowId ttype title msg : String) (st : AppState) : AppState :=
  { st with toasts := st.toasts ++ [{ id := nowId, type := ttype, title := title, message := msg }] }

/-- The localStorage key `lastSeenMessage_<conversationId>`. -/
def lastSeenKey (conversationId : String) : String :=
  "lastSeenMessage_" ++ conversationId

/-- Watermark currently persisted for a conversation. -/
def watermark (st : AppState) (conversationId : String) : Option String :=
  st.localStorage (lastSeenKey conversationId)

/-- `msg.userId !== user?.id` (comparing a string against `undefined` is
always a mismatch). -/
def isFromOtherUser (user : Option User) (m : Msg) : Bool :=
  match user with
  | some u => if m.userId = u.id then false else true
  | none => true

/-- The notification built for a newly detected message on the poll path:
id `msg_<messageId>`, type `new_message`, preview truncated at 40. -/
def messageNotification (conversationId now : String) (m : Msg) : Notification :=
  { id := "msg_" ++ m.id
    type := "new_message"
    title := "New message from " ++ m.user
    message := truncateAt 40 m.message
    read := false
    timestamp := (jsOr m.timestamp (some now)).getD now
    data := { conversationId := some conversationId, messageId := some m.id } }

/-- One iteration of the `formattedMessages.forEach` new-message loop:
classify the message against the watermark `w`, then create its notification
unless one with the same id already exists; the counter tracks how many
notifications this call created. -/
def notifStep (user : Option User) (conversationId now w : String)
    (acc : List Notification × Nat) (m : Msg) : List Notification × Nat :=
  let isOther := isFromOtherUser user m
  let isNewMessage := isOther && jsLt w m.id
  if isNewMessage && isOther then
    let notificationId := "msg_" ++ m.id
    if acc.1.any (fun n => n.id == notificationId) then acc
    else (messageNotification conversationId now m :: acc.1, acc.2 + 1)
  else acc

/-- The classification used by the new-message loop: the sender is another
user and the id sorts strictly after the watermark `w`. -/
def isNewFor (user : Option User) (w : String) (m : Msg) : Bool :=
  isFromOtherUser user m && jsLt w m.id

/-- The notification key the poll path derives from a message identifier. -/
def notifKeyOf (m : Msg) : String := "msg_" ++ m.id

/-- First-load branch of `loadConversationMessages`: no stored watermark, a
non-empty history and the chat popup closed establish the newest fetched
message as the watermark without notifying. -/
def establishWatermark (conversationId : String) (lastSeenMessageId : Option String)
    (formattedMessages : List Msg) (st : AppState) : AppState :=
  if jsTruthy lastSeenMessageId = false ∧ formattedMessages ≠ [] ∧ st.showChatPopup = false then
    match formattedMessages.getLast? with
    | some latestMessage =>
        { st with localStorage := setItem st.localStorage (lastSeenKey conversationId) latestMessage.id }
    | none => st
  else st

/-- New-message detection branch of `loadConversationMessages`: with the chat
popup closed and a truthy watermark, run the notification loop and add the
number of created notifications to the unread counter. -/
def detectNewMessages (user : Option User) (conversationId now : String)
    (lastSeenMessageId : Option String) (formattedMessages : List Msg)
    (st : AppState) : AppState :=
  if st.showChatPopup = false ∧ formattedMessages ≠ [] ∧ jsTruthy lastSeenMessageId = true then
    let w := lastSeenMessageId.getD ""
    let r := formattedMessages.foldl (notifStep user conversationId now w) (st.notifications, 0)
    { st with notifications := r.1, unreadMessagesCount := st.unreadMessagesCount + r.2 }
  else st

/-- Chat-open branch of `loadConversationMessages`: mark everything seen —
write the newest fetched id as the watermark, zero the unread counter and
mark this conversation's `new_message` notifications read. -/
def markSeenOnOpen (conversationId : String) (formattedMessages : List Msg)
    (st : AppState) : AppState :=
  if st.showChatPopup = true ∧ formattedMessages ≠ [] then
    match formattedMessages.getLast? with
    | some latestMessage =>
        { st with
          localStorage := setItem st.localStorage (lastSeenKey conversationId) latestMessage.id
          unreadMessagesCount := 0
          notifications := st.notifications.map (fun n =>
            if n.type = "new_message" ∧ n.data.conversationId = some conversationId then
              { n with read := true }
            else n) }
    | none => st
  else st

/-- Final step of `loadConversationMessages`: replace the visible list and the
per-conversation cache wholesale with the freshly formatted fetch result. -/
def commitMessages (conversationId : String) (formattedMessages : List Msg)
    (st : AppState) : AppState :=
  { st with
    chatMessages := formattedMessages
    conversations := fun k =>
      if k = conversationId then some formattedMessages else st.conversations k }

/-- Success path of `loadConversationMessages` (the reconciler): format the
fetched messages, read the stored watermark once, then run the first-load,
new-message, chat-open and commit stages in program order. -/
def reconcileOk (user : Option User) (now conversationId : String)
    (messages : List RawMsg) (st : AppState) : AppState :=
  let formattedMessages := messages.map formatMessage
  let lastSeenMessageId := st.localStorage (lastSeenKey conversationId)
  commitMessages conversationId formattedMessages
    (markSeenOnOpen conversationId formattedMessages
      (detectNewMessages user conversationId now lastSeenMessageId formattedMessages
        (establishWatermark conversationId lastSeenMessageId formattedMessages st)))

/-- `loadConversationMessages`: on success reconcile, on failure only show an
error toast (`error.message || 'Failed to load messages'`). -/
def loadConversationMessages (now conversationId : String)
    (response : Except (Option String) (List RawMsg)) (st : AppState) : AppState :=
  match response with
  | .ok messages => reconcileOk st.user now conversationId messages st
  | .error e =>
      showToast now "error" "Error" ((jsOr e (some "Failed to load messages")).getD "Failed to load messages") st

/-- Success path of `sendMessageAPI`: build the local message from the POST
echo (falling back to the current user's display fields) and append it, with
no duplicate check, to the visible list and the per-conversation cache. -/
def sendMessageOk (conversationId : String) (response : RawMsg) (st : AppState) : AppState :=
  let newMessage : Msg :=
    { id := response.id
      user := (jsOr response.sender_name (jsOr response.author_name
        (jsOr (st.user.map User.name) (some "You")))).getD "You"
      userId := (jsOr response.sender_id (jsOr response.author_id
        (jsOr (st.user.map User.id) (some "")))).getD ""
      message := response.content
      timestamp := response.created_at
      avatar := (jsOr response.sender_avatar (jsOr response.author_avatar
        (jsOr (st.user.map User.avatar) (some "U")))).getD "U" }
  { st with
    chatMessages := st.chatMessages ++ [newMessage]
    conversations := fun k =>
      if k = conversationId then some (((st.conversations conversationId).getD []) ++ [newMessage])
      else st.conversations k }

/-- The message object carried by a `chat_message` WebSocket envelope. -/
structure WsMessage where
  id : String
  content : String
  sender_id : Option String := none
  sender_name : Option String := none
  conversation_id : Option String := none
  created_at : Option String := none
  deriving Repr, DecidableEq

/-- A parsed WebSocket event (the shared socket also carries typing,
presence and deletion events; unparseable frames are `malformed`). -/
inductive WsEvent where
  | chatMessage (message : WsMessage)
  | userTyping (userId : String)
  | userOnline (userId : String)
  | userOffline (userId : String)
  | messageDeleted (messageId : String)
  | otherEvent
  | malformed
  deriving Repr, DecidableEq

/-- `message.sender_id !== user?.id` where either side may be `undefined`
(`undefined !== undefined` is false). -/
def wsFromOther (user : Option User) (senderId : Option String) : Bool :=
  match user, senderId with
  | some u, some s => if s = u.id then false else true
  | some _, none => true
  | none, some _ => true
  | none, none => false

/-- The `chat_message` branch of the `App` component's WebSocket handler:
for a foreign sender, look its name up in `users`, show a toast and prepend a
`comment_added` notification whose id is the `Date.now()` string. -/
def wsChatMessage (nowId nowIso : String) (message : WsMessage) (st : AppState) : AppState :=
  if wsFromOther st.user message.sender_id then
    let sender := st.users.find? (fun u => message.sender_id == some u.id)
    let senderName := (jsOr (sender.map User.name) (jsOr message.sender_name (some "Someone"))).getD "Someone"
    let st1 := showToast nowId "info" ("New Message from " ++ senderName)
      (truncateAt 50 message.content) st
    { st1 with notifications :=
        { id := nowId
          type := "comment_added"
          title := "New Message from " ++ senderName
          message := truncateAt 100 message.content
          read := false
          timestamp := nowIso
          data := { message_id := some message.id, sender_id := message.sender_id,
                    conversation_id := message.conversation_id } } :: st1.notifications }
  else st

/-- The `App` component's `onmessage` handler: only `chat_message` envelopes
are acted on; other event types and parse failures leave the state alone. -/
def appOnMessage (nowId nowIso : String) (event : WsEvent) (st : AppState) : AppState :=
  match event with
  | .chatMessage m => wsChatMessage nowId nowIso m st
  | _ => st

/-- The floating chat button's click handler: toggle the popup and, when it
was closed, reset the unread counter. -/
def toggleChatPopup (st : AppState) : AppState :=
  let st1 := { st with showChatPopup := !st.showChatPopup }
  if st.showChatPopup = false then { st1 with unreadMessagesCount := 0 } else st1

/-- One asynchronous event hitting the `App` component's reconciler state. -/
inductive Op where
  | reconcile (now conversationId : String) (response : Except (Option String) (List RawMsg))
  | wsDeliver (nowId nowIso : String) (event : WsEvent)
  | send (conversationId : String) (response : RawMsg)
  | togglePopup
  deriving Repr

/-- Interpret one event on the `App` state. -/
def applyOp : Op → AppState → AppState
  | .reconcile now cid resp, st => loadConversationMessages now cid resp st
  | .wsDeliver nowId nowIso ev, st => appOnMessage nowId nowIso ev st
  | .send cid resp, st => sendMessageOk cid resp st
  | .togglePopup, st => toggleChatPopup st

/-- Interpret a sequence of events, oldest first. -/
def applyOps (ops : List Op) (st : AppState) : AppState :=
  ops.foldl (fun s op => applyOp op s) st

/-! ## The `Chat` component (Chat.tsx) -/

/-- Chat.tsx's `Conversation` shape (the fields its handler touches).
Chat.tsx's `Message` shape is the backend message object itself, embedded
here as `WsMessage`. -/
structure ChatConversation where
  id : String
  name : String := ""
  type : String := "direct"
  last_message : Option WsMessage := none
  last_activity : Option String := none
  deriving Repr, DecidableEq

/-- The `Chat` component state touched by `loadMessages` and the socket
handler. -/
structure ChatState where
  messages : List WsMessage := []
  conversations : List ChatConversation := []
  users : List User := []
  typingUsers : List String := []
  error : Option String := none
  toasts : List ToastMessage := []

/-- Chat.tsx `loadMessages`: on success replace the list wholesale; on
failure set the error banner and clear the list to the empty array. -/
def loadMessages (response : Except String (List WsMessage)) (st : ChatState) : ChatState :=
  match response with
  | .ok messagesArray => { st with messages := messagesArray }
  | .error e =>
      { st with error := some ("Failed to load messages: " ++ e), messages := [] }

/-- The `chat_message` case of Chat.tsx's socket handler: append unless a
message with the same id is already present, update the conversation's last
message, and toast when the sender is another user.  (The toast callback is
modelled as always supplied.) -/
def chatApplyLiveMessage (currentUser : Option User) (m : WsMessage) (st : ChatState) : ChatState :=
  let st1 :=
    if st.messages.any (fun x => x.id == m.id) then st
    else { st with messages := st.messages ++ [m] }
  let st2 :=
    { st1 with conversations := st1.conversations.map (fun conv =>
        if some conv.id = m.conversation_id then
          { conv with last_message := some m, last_activity := m.created_at }
        else conv) }
  if wsFromOther currentUser m.sender_id then
    { st2 with toasts := st2.toasts ++ [{
        id := ""
        type := "info"
        title := "New Message from " ++ ((jsOr m.sender_name (some "Someone")).getD "Someone")
        message := truncateAt 50 m.content }] }
  else st2

/-- The body of the handler Chat.tsx installs in `connectSocket`: the switch
over the envelope's `type` field.  (The 3-second timed removal of a typing
indicator is a scheduled future event and is not part of this step.) -/
def chatOnMessage (currentUser : Option User) (event : WsEvent) (st : ChatState) : ChatState :=
  match event with
  | .chatMessage m => chatApplyLiveMessage currentUser m st
  | .userTyping uid =>
      if wsFromOther currentUser (some uid) then
        { st with typingUsers := st.typingUsers.filter (fun i => i ≠ uid) ++ [uid] }
      else st
  | .userOnline uid =>
      { st with users := st.users.map (fun u =>
          if u.id = uid then { u with is_online := some true } else u) }
  | .userOffline uid =>
      { st with users := st.users.map (fun u =>
          if u.id = uid then { u with is_online := some false } else u) }
  | .messageDeleted mid =>
      { st with messages := st.messages.filter (fun x => x.id ≠ mid) }
  | .otherEvent => st
  | .malformed => st

/-- Chat.tsx `connectSocket`'s handler installation: the previously installed
`onmessage` handler (if any, operating on its own state `σ`) is saved and
called first on every event, then the chat switch runs. -/
def installChatHandler {σ : Type} (currentUser : Option User)
    (originalOnMessage : Option (WsEvent → σ → σ)) :
    WsEvent → σ × ChatState → σ × ChatState :=
  fun event s =>
    let s1 :=
      match originalOnMessage with
      | some h => (h event s.1, s.2)
      | none => s
    (s1.1, chatOnMessage currentUser event s1.2)

/-- `EnhancedChat`'s registration style: `addEventListener('message', h)`
appends to the socket's listener list. -/
def addMessageListener {τ : Type} (listeners : List (WsEvent → τ → τ))
    (handler : WsEvent → τ → τ) : List (WsEvent → τ → τ) :=
  listeners ++ [handler]

/-- Firing one event at every registered listener, in registration order. -/
def dispatchListeners {τ : Type} (listeners : List (WsEvent → τ → τ))
    (event : WsEvent) (s : τ) : τ :=
  listeners.foldl (fun acc h => h event acc) s

/-- One asynchronous event hitting the `Chat` component's state. -/
inductive ChatOp where
  | load (response : Except String (List WsMessage))
  | socket (event : WsEvent)
  deriving Repr

/-- Interpret one event on the `Chat` state. -/
def applyChatOp (currentUser : Option User) : ChatOp → ChatState → ChatState
  | .load resp, st => loadMessages resp st
  | .socket ev, st => chatOnMessage currentUser ev st

/-- Interpret a sequence of events on the `Chat` state, oldest first. -/
def applyChatOps (currentUser : Option User) (ops : List ChatOp) (st : ChatState) : ChatState :=
  ops.foldl (fun s op => applyChatOp currentUser op s) st

/-! ## Specification-side predicates -/

/-- The formatted fetched messages a reconcile against watermark `w` would
classify as new: sent by another user, id strictly after `w`. -/
def fmNew (user : Option User) (w : String) (messages : List RawMsg) : List Msg :=
  (messages.map formatMessage).filter (isNewFor user w)

/-- Watermark non-regression between two stored values: whenever a value was
stored before, a value is stored after and it does not sort below it. -/
def wmNotRegressed (before after : Option String) : Prop :=
  ∀ w, before = some w → ∃ w2, after = some w2 ∧ jsLt w2 w = false

/-- Side condition under which one operation cannot lower a conversation's
stored watermark: a successful reconcile of that conversation must fetch a
list whose newest formatted message id does not sort below the currently
stored watermark.  All other operations qualify unconditionally. -/
def FetchFresh (conversationId : String) : Op → AppState → Prop
  | .reconcile _ c (.ok msgs), st =>
      c = conversationId →
      ∀ w latest, st.localStorage (lastSeenKey conversationId) = some w →
        (msgs.map formatMessage).getLast? = some latest →
        jsLt latest.id w = false
  | _, _ => True

/-- `FetchFresh` holding at every step along a trace. -/
def FetchFreshTrace (conversationId : String) : List Op → AppState → Prop
  | [], _ => True
  | op :: ops, st => FetchFresh conversationId op st ∧ FetchFreshTrace conversationId ops (applyOp op st)

/-- Fetched lists whose raw ids are duplicate-free, and no optimistic sends:
the regime in which the local list stays duplicate-free. -/
def DedupSafe : Op → Prop
  | .reconcile _ _ (.ok msgs) => (msgs.map RawMsg.id).Nodup
  | .reconcile _ _ (.error _) => True
  | .send _ _ => False
  | _ => True

/-- The analogous regime for the `Chat` component (its socket path and its
failure path are always safe). -/
def ChatDedupSafe : ChatOp → Prop
  | .load (.ok ms) => (ms.map WsMessage.id).Nodup
  | _ => True

/-! ## Concrete fixtures -/

/-- A logged-in current user. -/
def uMe : User := { id := "u0", name := "Me" }

/-- A raw backend message `i` from sender `sid`. -/
def rawFrom (i sid : String) : RawMsg := { id := i, content := "hello", sender_id := some sid }

/-- A raw backend message with no sender-identifier shape at all. -/
def rawSenderless (i : String) : RawMsg := { id := i, content := "hello" }

/-- App state: logged in as `uMe`, popup closed, watermark `m0` stored for
conversation `c1`. -/
def stBase : AppState :=
  { user := some uMe
    localStorage := setItem (fun _ => none) (lastSeenKey "c1") "m0" }

/-- App state: logged in as `uMe`, popup open, watermark `m5` stored for
conversation `c1`. -/
def stOpen5 : AppState :=
  { user := some uMe
    showChatPopup := true
    localStorage := setItem (fun _ => none) (lastSeenKey "c1") "m5" }

/-- App state: logged in as `uMe`, nothing stored, popup closed. -/
def stFresh : AppState := { user := some uMe }

/-- A live WebSocket chat message from `u1` in conversation `c1`. -/
def wsM1 : WsMessage :=
  { id := "m1", content := "a", sender_id := some "u1", conversation_id := some "c1" }

/-- A stale local message (absent from any fetch used in the witnesses). -/
def mStale : Msg :=
  { id := "w9", user := "X", userId := "u9", message := "old", timestamp := none, avatar := "U" }

/-- App state holding one stale local message. -/
def stWithStale : AppState := { user := some uMe, chatMessages := [mStale] }

/-- Chat-component state holding one loaded message. -/
def cstWithMsg : ChatState := { messages := [wsM1] }

/-- Like `stBase`, but the poll notification for `m1` already exists. -/
def stNotified : AppState :=
  { user := some uMe
    notifications := [messageNotification "c1" "t0" (formatMessage (rawFrom "m1" "u1"))]
    localStorage := setItem (fun _ => none) (lastSeenKey "c1") "m0" }

/-! ## Helper lemmas -/

theorem ltChars_irrefl (l : List Char) : ltChars l l = false := by
  induction l with
  | nil => rfl
  | cons a as ih => simp [ltChars, ih]

theorem jsLt_irrefl (s : String) : jsLt s s = false :=
  ltChars_irrefl s.data

theorem ltChars_nil_right (l : List Char) : ltChars l [] = false := by
  cases l <;> rfl

theorem ltChars_cons_cons (a b : Char) (as bs : List Char) :
    ltChars (a :: as) (b :: bs)
      = if a < b then true else if b < a then false else ltChars as bs := rfl

theorem ltChars_cons_eq_false {a b : Char} {as bs : List Char} :
    ltChars (a :: as) (b :: bs) = false ↔ ¬ a < b ∧ (b < a ∨ ltChars as bs = false) := by
  rw [ltChars_cons_cons]
  split
  · simp_all
  · split <;> simp_all

/-- The induced "not above" relation on character lists is transitive. -/
theorem ltChars_not_above_trans :
    ∀ (a b c : List Char), ltChars b a = false → ltChars c b = false →
      ltChars c a = false := by
  intro a
  induction a with
  | nil => intro b c _ _; exact ltChars_nil_right c
  | cons x xs ih =>
    intro b c h1 h2
    cases b with
    | nil => simp [ltChars] at h1
    | cons y ys =>
      cases c with
      | nil => simp [ltChars] at h2
      | cons z zs =>
        rw [ltChars_cons_eq_false] at h1 h2 ⊢
        obtain ⟨hyx, h1'⟩ := h1
        obtain ⟨hzy, h2'⟩ := h2
        constructor
        · intro hzx
          exact absurd (lt_of_lt_of_le hzx (le_trans (le_of_not_lt hyx) (le_of_not_lt hzy)))
            (lt_irrefl z)
        · rcases h1' with hxy | hyx'
          · left; exact lt_of_lt_of_le hxy (le_of_not_lt hzy)
          · rcases h2' with hyz | hzy'
            · left; exact lt_of_le_of_lt (le_of_not_lt hyx) hyz
            · right; exact ih ys zs hyx' hzy'

/-- The induced "not above" relation on strings is transitive. -/
theorem jsLt_not_above_trans {a b c : String} (h1 : jsLt b a = false)
    (h2 : jsLt c b = false) : jsLt c a = false :=
  ltChars_not_above_trans a.data b.data c.data h1 h2

theorem setItem_self (store : String → Option String) (k v : String) :
    setItem store k v k = some v := by simp [setItem]

theorem setItem_ne (store : String → Option String) (k v k2 : String) (h : k2 ≠ k) :
    setItem store k v k2 = store k2 := by simp [setItem, h]

theorem lastSeenKey_inj {a b : String} (h : lastSeenKey a = lastSeenKey b) : a = b := by
  have hd := congrArg String.data h
  simp only [lastSeenKey, String.data_append] at hd
  exact String.ext (List.append_cancel_left hd)

theorem getLast?_mem_of_eq {α : Type} : ∀ {l : List α} {a : α}, l.getLast? = some a → a ∈ l
  | [x], a, h => by
      simp only [List.getLast?_singleton, Option.some.injEq] at h
      simp [h]
  | x :: y :: ys, a, h => by
      rw [List.getLast?_cons_cons] at h
      exact List.mem_cons_of_mem x (getLast?_mem_of_eq h)

/-! ### The new-message loop -/

theorem notifStep_eq (user : Option User) (cid now w : String)
    (acc : List Notification × Nat) (m : Msg) :
    notifStep user cid now w acc m
      = if isNewFor user w m then
          (if acc.1.any (fun n => n.id == notifKeyOf m) then acc
           else (messageNotification cid now m :: acc.1, acc.2 + 1))
        else acc := by
  unfold notifStep isNewFor notifKeyOf
  cases h1 : isFromOtherUser user m <;> cases h2 : jsLt w m.id <;> simp [h1, h2]

theorem any_id_eq_false_iff (notifs : List Notification) (k : String) :
    (notifs.any (fun n => n.id == k)) = false ↔ k ∉ notifs.map Notification.id := by
  simp only [List.any_eq_false, List.mem_map, beq_iff_eq, not_exists]
  tauto

theorem foldl_notifStep_fresh (user : Option User) (cid now w : String) :
    ∀ (l : List Msg) (notifs : List Notification) (cnt : Nat),
      ((l.filter (isNewFor user w)).map notifKeyOf).Nodup →
      (∀ k ∈ (l.filter (isNewFor user w)).map notifKeyOf, k ∉ notifs.map Notification.id) →
      (l.foldl (notifStep user cid now w) (notifs, cnt)).1.map Notification.id
          = ((l.filter (isNewFor user w)).map notifKeyOf).reverse ++ notifs.map Notification.id
        ∧ (l.foldl (notifStep user cid now w) (notifs, cnt)).2
          = cnt + (l.filter (isNewFor user w)).length := by
  intro l
  induction l with
  | nil => intro notifs cnt _ _; simp
  | cons m l ih =>
    intro notifs cnt hnodup hfresh
    by_cases hm : isNewFor user w m = true
    · rw [List.filter_cons_of_pos hm] at hnodup hfresh ⊢
      have hkey : notifKeyOf m ∉ notifs.map Notification.id := hfresh _ (by simp)
      have hany : (notifs.any (fun n => n.id == notifKeyOf m)) = false :=
        (any_id_eq_false_iff notifs (notifKeyOf m)).mpr hkey
      rw [List.map_cons, List.nodup_cons] at hnodup
      obtain ⟨hhead, htail⟩ := hnodup
      have hfresh' : ∀ k ∈ (l.filter (isNewFor user w)).map notifKeyOf,
          k ∉ (messageNotification cid now m :: notifs).map Notification.id := by
        intro k hk
        simp only [List.map_cons, List.mem_cons, not_or]
        refine ⟨?_, hfresh k (List.mem_cons_of_mem _ hk)⟩
        intro hEq
        have hkm : k = notifKeyOf m := by simpa [messageNotification, notifKeyOf] using hEq
        exact hhead (hkm ▸ hk)
      obtain ⟨ih1, ih2⟩ := ih (messageNotification cid now m :: notifs) (cnt + 1) htail hfresh'
      rw [List.foldl_cons, notifStep_eq, if_pos hm, hany]
      constructor
      · rw [if_neg (by simp), ih1]
        simp [messageNotification, notifKeyOf, List.append_assoc]
      · rw [if_neg (by simp), ih2]
        simp only [List.length_cons]
        omega
    · rw [List.foldl_cons, notifStep_eq, if_neg hm]
      rw [List.filter_cons_of_neg (by simpa using hm)] at hnodup hfresh ⊢
      exact ih notifs cnt hnodup hfresh

theorem foldl_notifStep_stale (user : Option User) (cid now w : String) :
    ∀ (l : List Msg) (notifs : List Notification) (cnt : Nat),
      (∀ k ∈ (l.filter (isNewFor user w)).map notifKeyOf, k ∈ notifs.map Notification.id) →
      l.foldl (notifStep user cid now w) (notifs, cnt) = (notifs, cnt) := by
  intro l
  induction l with
  | nil => intro notifs cnt _; rfl
  | cons m l ih =>
    intro notifs cnt hstale
    by_cases hm : isNewFor user w m = true
    · rw [List.filter_cons_of_pos hm] at hstale
      have hkey : notifKeyOf m ∈ notifs.map Notification.id := hstale _ (by simp)
      have hany : (notifs.any (fun n => n.id == notifKeyOf m)) = true := by
        cases h : notifs.any (fun n => n.id == notifKeyOf m)
        · exact absurd hkey ((any_id_eq_false_iff notifs (notifKeyOf m)).mp h)
        · rfl
      rw [List.foldl_cons, notifStep_eq, if_pos hm, hany, if_pos rfl]
      exact ih notifs cnt (fun k hk => hstale k (List.mem_cons_of_mem _ hk))
    · rw [List.foldl_cons, notifStep_eq, if_neg hm]
      rw [List.filter_cons_of_neg (by simpa using hm)] at hstale
      exact ih notifs cnt hstale

theorem foldl_notifStep_sub (user : Option User) (cid now w : String) :
    ∀ (l : List Msg) (notifs : List Notification) (cnt : Nat) (x : String),
      x ∈ (l.foldl (notifStep user cid now w) (notifs, cnt)).1.map Notification.id →
      x ∈ notifs.map Notification.id ∨ ∃ m ∈ l, isNewFor user w m = true ∧ x = notifKeyOf m := by
  intro l
  induction l with
  | nil => intro notifs cnt x hx; exact Or.inl hx
  | cons m l ih =>
    intro notifs cnt x hx
    rw [List.foldl_cons, notifStep_eq] at hx
    by_cases hm : isNewFor user w m = true
    · rw [if_pos hm] at hx
      by_cases hany : (notifs.any (fun n => n.id == notifKeyOf m)) = true
      · rw [if_pos hany] at hx
        rcases ih notifs cnt x hx with h | ⟨m2, hm2, hnew, hk⟩
        · exact Or.inl h
        · exact Or.inr ⟨m2, List.mem_cons_of_mem _ hm2, hnew, hk⟩
      · rw [if_neg hany] at hx
        rcases ih _ _ x hx with h | ⟨m2, hm2, hnew, hk⟩
        · rw [List.map_cons, List.mem_cons] at h
          rcases h with h' | h'
          · exact Or.inr ⟨m, List.mem_cons_self m l, hm, by
              simpa [messageNotification, notifKeyOf] using h'⟩
          · exact Or.inl h'
        · exact Or.inr ⟨m2, List.mem_cons_of_mem _ hm2, hnew, hk⟩
    · rw [if_neg hm] at hx
      rcases ih notifs cnt x hx with h | ⟨m2, hm2, hnew, hk⟩
      · exact Or.inl h
      · exact Or.inr ⟨m2, List.mem_cons_of_mem _ hm2, hnew, hk⟩

/-! ### Stage lemmas for `reconcileOk` -/

theorem establishWatermark_only_storage (cid : String) (ls : Option String)
    (fm : List Msg) (st : AppState) :
    establishWatermark cid ls fm st
      = { st with localStorage := (establishWatermark cid ls fm st).localStorage } := by
  unfold establishWatermark
  split
  · split <;> rfl
  · rfl

theorem establishWatermark_of_truthy (cid : String) (ls : Option String)
    (fm : List Msg) (st : AppState) (h : jsTruthy ls = true) :
    establishWatermark cid ls fm st = st := by
  unfold establishWatermark
  split
  · simp_all
  · rfl

theorem establishWatermark_of_open (cid : String) (ls : Option String)
    (fm : List Msg) {st : AppState} (h : st.showChatPopup = true) :
    establishWatermark cid ls fm st = st := by
  unfold establishWatermark
  split
  · simp_all
  · rfl

theorem establishWatermark_write (cid : String) (ls : Option String)
    {fm : List Msg} {st : AppState} {latest : Msg}
    (h1 : jsTruthy ls = false) (h2 : fm ≠ []) (h3 : st.showChatPopup = false)
    (hl : fm.getLast? = some latest) :
    establishWatermark cid ls fm st
      = { st with localStorage := setItem st.localStorage (lastSeenKey cid) latest.id } := by
  unfold establishWatermark
  rw [if_pos ⟨h1, h2, h3⟩, hl]

theorem detectNewMessages_only_notifs (user : Option User) (cid now : String)
    (ls : Option String) (fm : List Msg) (st : AppState) :
    detectNewMessages user cid now ls fm st
      = { st with
          notifications := (detectNewMessages user cid now ls fm st).notifications
          unreadMessagesCount := (detectNewMessages user cid now ls fm st).unreadMessagesCount } := by
  unfold detectNewMessages
  split <;> rfl

theorem detectNewMessages_of_open (user : Option User) (cid now : String)
    (ls : Option String) (fm : List Msg) {st : AppState}
    (h : st.showChatPopup = true) :
    detectNewMessages user cid now ls fm st = st := by
  unfold detectNewMessages
  split
  · simp_all
  · rfl

theorem detectNewMessages_of_falsy (user : Option User) (cid now : String)
    (ls : Option String) (fm : List Msg) (st : AppState)
    (h : jsTruthy ls = false) :
    detectNewMessages user cid now ls fm st = st := by
  unfold detectNewMessages
  split
  · simp_all
  · rfl

theorem detectNewMessages_run (user : Option User) (cid now : String)
    {w : String} {fm : List Msg} {st : AppState}
    (h1 : st.showChatPopup = false) (h2 : fm ≠ []) (hw : w ≠ "") :
    detectNewMessages user cid now (some w) fm st
      = { st with
          notifications := (fm.foldl (notifStep user cid now w) (st.notifications, 0)).1
          unreadMessagesCount :=
            st.unreadMessagesCount + (fm.foldl (notifStep user cid now w) (st.notifications, 0)).2 } := by
  unfold detectNewMessages
  rw [if_pos ⟨h1, h2, by simp [jsTruthy, hw]⟩]
  rfl

theorem markSeenOnOpen_of_closed (cid : String) (fm : List Msg) {st : AppState}
    (h : st.showChatPopup = false) :
    markSeenOnOpen cid fm st = st := by
  unfold markSeenOnOpen
  split
  · simp_all
  · rfl

theorem markSeenOnOpen_open (cid : String) {fm : List Msg} {st : AppState} {latest : Msg}
    (h : st.showChatPopup = true) (h2 : fm ≠ []) (hl : fm.getLast? = some latest) :
    markSeenOnOpen cid fm st
      = { st with
          localStorage := setItem st.localStorage (lastSeenKey cid) latest.id
          unreadMessagesCount := 0
          notifications := st.notifications.map (fun n =>
            if n.type = "new_message" ∧ n.data.conversationId = some cid then
              { n with read := true }
            else n) } := by
  unfold markSeenOnOpen
  rw [if_pos ⟨h, h2⟩, hl]

theorem markSeenOnOpen_keeps_messages (cid : String) (fm : List Msg) (st : AppState) :
    (markSeenOnOpen cid fm st).chatMessages = st.chatMessages ∧
      (markSeenOnOpen cid fm st).conversations = st.conversations ∧
      (markSeenOnOpen cid fm st).showChatPopup = st.showChatPopup ∧
      (markSeenOnOpen cid fm st).user = st.user ∧
      (markSeenOnOpen cid fm st).toasts = st.toasts := by
  unfold markSeenOnOpen
  split
  · split <;> exact ⟨rfl, rfl, rfl, rfl, rfl⟩
  · exact ⟨rfl, rfl, rfl, rfl, rfl⟩

theorem commitMessages_eq (cid : String) (fm : List Msg) (st : AppState) :
    commitMessages cid fm st
      = { st with
          chatMessages := fm
          conversations := fun k => if k = cid then some fm else st.conversations k } := rfl

theorem establishWatermark_notifications (cid : String) (ls : Option String)
    (fm : List Msg) (st : AppState) :
    (establishWatermark cid ls fm st).notifications = st.notifications := by
  rw [establishWatermark_only_storage]

theorem establishWatermark_unread (cid : String) (ls : Option String)
    (fm : List Msg) (st : AppState) :
    (establishWatermark cid ls fm st).unreadMessagesCount = st.unreadMessagesCount := by
  rw [establishWatermark_only_storage]

theorem establishWatermark_popup (cid : String) (ls : Option String)
    (fm : List Msg) (st : AppState) :
    (establishWatermark cid ls fm st).showChatPopup = st.showChatPopup := by
  rw [establishWatermark_only_storage]

theorem establishWatermark_of_nil (cid : String) (ls : Option String) (st : AppState) :
    establishWatermark cid ls [] st = st := by
  unfold establishWatermark
  simp

theorem detectNewMessages_of_nil (user : Option User) (cid now : String)
    (ls : Option String) (st : AppState) :
    detectNewMessages user cid now ls [] st = st := by
  unfold detectNewMessages
  simp

theorem detectNewMessages_localStorage (user : Option User) (cid now : String)
    (ls : Option String) (fm : List Msg) (st : AppState) :
    (detectNewMessages user cid now ls fm st).localStorage = st.localStorage := by
  rw [detectNewMessages_only_notifs]

theorem detectNewMessages_popup (user : Option User) (cid now : String)
    (ls : Option String) (fm : List Msg) (st : AppState) :
    (detectNewMessages user cid now ls fm st).showChatPopup = st.showChatPopup := by
  rw [detectNewMessages_only_notifs]

theorem markSeenOnOpen_of_nil (cid : String) (st : AppState) :
    markSeenOnOpen cid [] st = st := by
  unfold markSeenOnOpen
  simp

theorem markSeenOnOpen_unread_le (cid : String) (fm : List Msg) (st : AppState) :
    (markSeenOnOpen cid fm st).unreadMessagesCount ≤ st.unreadMessagesCount := by
  unfold markSeenOnOpen
  split
  · split
    · exact Nat.zero_le _
    · exact Nat.le_refl _
  · exact Nat.le_refl _

theorem markRead_map_id (cid : String) (notifs : List Notification) :
    (notifs.map (fun n =>
        if n.type = "new_message" ∧ n.data.conversationId = some cid then
          { n with read := true }
        else n)).map Notification.id = notifs.map Notification.id := by
  rw [List.map_map]
  apply List.map_congr_left
  intro n _
  by_cases h : n.type = "new_message" ∧ n.data.conversationId = some cid <;> simp [h]

theorem markSeenOnOpen_notif_ids (cid : String) (fm : List Msg) (st : AppState) :
    (markSeenOnOpen cid fm st).notifications.map Notification.id
      = st.notifications.map Notification.id := by
  unfold markSeenOnOpen
  split
  · split
    · exact markRead_map_id cid st.notifications
    · rfl
  · rfl

theorem appOnMessage_frame (nowId nowIso : String) (event : WsEvent) (st : AppState) :
    (appOnMessage nowId nowIso event st).localStorage = st.localStorage
      ∧ (appOnMessage nowId nowIso event st).chatMessages = st.chatMessages
      ∧ (appOnMessage nowId nowIso event st).showChatPopup = st.showChatPopup
      ∧ (appOnMessage nowId nowIso event st).conversations = st.conversations := by
  cases event <;> try exact ⟨rfl, rfl, rfl, rfl⟩
  case chatMessage m =>
    by_cases h : wsFromOther st.user m.sender_id = true
    · simp [appOnMessage, wsChatMessage, h, showToast]
    · simp [appOnMessage, wsChatMessage, if_neg h]

theorem toggleChatPopup_frame (st : AppState) :
    (toggleChatPopup st).localStorage = st.localStorage
      ∧ (toggleChatPopup st).chatMessages = st.chatMessages
      ∧ (toggleChatPopup st).conversations = st.conversations := by
  unfold toggleChatPopup
  split <;> exact ⟨rfl, rfl, rfl⟩

theorem pairwise_not_above_getLast :
    ∀ (l : List String), l.Pairwise (fun a b => jsLt b a = false) →
      ∀ {last : String}, l.getLast? = some last → ∀ x ∈ l, jsLt last x = false := by
  intro l
  induction l with
  | nil => intro _ last h; simp at h
  | cons a l ih =>
    intro hp last hlast x hx
    cases l with
    | nil =>
      have ha : a = last := by simpa [List.getLast?_singleton] using hlast
      have hxa : x = a := by simpa using hx
      rw [hxa, ← ha]
      exact jsLt_irrefl a
    | cons b l2 =>
      rw [List.getLast?_cons_cons] at hlast
      rw [List.pairwise_cons] at hp
      obtain ⟨ha, hp2⟩ := hp
      rcases List.mem_cons.mp hx with rfl | hx2
      · exact ha last (getLast?_mem_of_eq hlast)
      · exact ih hp2 hlast x hx2

/-! ## Claim theorems -/

/-- C9: every successful reconcile replaces the conversation's local message
list wholesale with the normalized form of the fetched list — both the
visible list and the per-conversation cache equal exactly the formatted
fetch result — so a locally present message whose identifier is absent from
the fetched list is dropped rather than merged. -/
theorem C9_reconcile_replaces_wholesale (user : Option User) (now cid : String)
    (msgs : List RawMsg) (st : AppState) :
    (reconcileOk user now cid msgs st).chatMessages = msgs.map formatMessage
      ∧ (reconcileOk user now cid msgs st).conversations cid = some (msgs.map formatMessage)
      ∧ (∀ m ∈ st.chatMessages, m.id ∉ msgs.map RawMsg.id →
          m ∉ (reconcileOk user now cid msgs st).chatMessages) := by
  refine ⟨rfl, by simp [reconcileOk, commitMessages], ?_⟩
  intro m _ hid hmem
  rw [show (reconcileOk user now cid msgs st).chatMessages = msgs.map formatMessage from rfl] at hmem
  obtain ⟨r, hr, hfr⟩ := List.mem_map.mp hmem
  apply hid
  rw [← hfr]
  exact List.mem_map_of_mem RawMsg.id hr

/-- Witness for C9: a stale local message with identifier `w9`, absent from
a fetch of `[m1]`, is gone after the reconcile. -/
theorem C9_witness :
    mStale ∉ (reconcileOk (some uMe) "t" "c1" [rawFrom "m1" "u1"] stWithStale).chatMessages :=
  (C9_reconcile_replaces_wholesale (some uMe) "t" "c1" [rawFrom "m1" "u1"] stWithStale).2.2
    mStale (by decide) (by decide)

/-- C7 as stated is false on Chat.tsx's `loadMessages`: a failed history
fetch does not leave the local message list untouched — line 134 clears it
to the empty array. -/
theorem C7_counterexample :
    cstWithMsg.messages = [wsM1]
      ∧ (loadMessages (.error "Network Error") cstWithMsg).messages = []
      ∧ wsM1 ∉ (loadMessages (.error "Network Error") cstWithMsg).messages :=
  ⟨rfl, rfl, by decide⟩

/-- C7 (amended): a failed history fetch is surfaced as a transient error.
In the App component's `loadConversationMessages` every piece of local state
— message list, notifications, unread counter, watermark store, conversation
cache — is left exactly as it was, and one error toast is appended.  In
Chat.tsx's `loadMessages`, however, the error banner is set and the local
message list is cleared to the empty array rather than left untouched. -/
theorem C7_fetch_failure (now cid : String) (e : Option String) (st : AppState)
    (e2 : String) (cst : ChatState) :
    ((loadConversationMessages now cid (.error e) st).chatMessages = st.chatMessages
      ∧ (loadConversationMessages now cid (.error e) st).notifications = st.notifications
      ∧ (loadConversationMessages now cid (.error e) st).unreadMessagesCount = st.unreadMessagesCount
      ∧ (loadConversationMessages now cid (.error e) st).localStorage = st.localStorage
      ∧ (loadConversationMessages now cid (.error e) st).conversations = st.conversations
      ∧ (loadConversationMessages now cid (.error e) st).showChatPopup = st.showChatPopup
      ∧ (loadConversationMessages now cid (.error e) st).toasts
          = st.toasts ++ [⟨now, "error", "Error",
              (jsOr e (some "Failed to load messages")).getD "Failed to load messages"⟩])
    ∧ ((loadMessages (.error e2) cst).error = some ("Failed to load messages: " ++ e2)
      ∧ (loadMessages (.error e2) cst).messages = []
      ∧ (loadMessages (.error e2) cst).conversations = cst.conversations
      ∧ (loadMessages (.error e2) cst).toasts = cst.toasts) :=
  ⟨⟨rfl, rfl, rfl, rfl, rfl, rfl, rfl⟩, rfl, rfl, rfl, rfl⟩

/-- C8: installing the chat handler composes with, rather than replaces, any
previously registered handler.  Chat.tsx's `connectSocket` chains the saved
`onmessage` (called first on every event, with its full effect on its own
state) before the chat switch, and `EnhancedChat`'s `addEventListener`
registration keeps every previously registered listener firing. -/
theorem C8_handler_registration_additive {σ τ : Type} (currentUser : Option User)
    (original : WsEvent → σ → σ) (event : WsEvent) (s : σ) (c : ChatState)
    (listeners : List (WsEvent → τ → τ)) (handler : WsEvent → τ → τ) (t : τ) :
    installChatHandler currentUser (some original) event (s, c)
        = (original event s, chatOnMessage currentUser event c)
      ∧ installChatHandler currentUser (none : Option (WsEvent → σ → σ)) event (s, c)
        = (s, chatOnMessage currentUser event c)
      ∧ dispatchListeners (addMessageListener listeners handler) event t
          = handler event (dispatchListeners listeners event t) := by
  refine ⟨rfl, rfl, ?_⟩
  simp [dispatchListeners, addMessageListener, List.foldl_append]

/-- C10: a raw message carrying none of the sender-identifier shapes
(`sender_id`, `author_id`, nested `author.id`) normalizes to the
empty-string sender identifier; the empty string never matches a non-empty
current-user identifier (nor a logged-out user), so such a message is
classified as another user's, and concretely it produces a notification and
an unread increment. -/
theorem C10_senderless_counts_as_other :
    (∀ r : RawMsg, r.sender_id = none → r.author_id = none → r.author.bind Author.id = none →
        (formatMessage r).userId = "")
    ∧ (∀ (u : User) (m : Msg), u.id ≠ "" → m.userId = "" → isFromOtherUser (some u) m = true)
    ∧ (∀ m : Msg, isFromOtherUser none m = true)
    ∧ (reconcileOk (some uMe) "t" "c1" [rawSenderless "m1"] stBase).unreadMessagesCount
        = stBase.unreadMessagesCount + 1
    ∧ notifKeyOf (formatMessage (rawSenderless "m1"))
        ∈ (reconcileOk (some uMe) "t" "c1" [rawSenderless "m1"] stBase).notifications.map Notification.id := by
  refine ⟨?_, ?_, ?_, by decide, by decide⟩
  · intro r h1 h2 h3
    simp [formatMessage, jsOr, h1, h2, h3]
  · intro u m hu hm
    have hred : isFromOtherUser (some u) m = if m.userId = u.id then false else true := rfl
    rw [hred, hm, if_neg (fun h => hu h.symm)]
  · intro m
    rfl

/-- C3: on the first-ever load of a conversation with pre-existing history
and no stored watermark, reconcile creates zero notifications, does not
increment the unread counter, and writes a watermark equal to the newest
fetched message's identifier (the greatest, for an id-sorted fetch). -/
theorem C3_first_load_is_silent (user : Option User) (now cid : String)
    (msgs : List RawMsg) (st : AppState)
    (hnone : watermark st cid = none)
    (hne : msgs ≠ [])
    (hsorted : (msgs.map RawMsg.id).Pairwise (fun a b => jsLt b a = false)) :
    ∃ last, (msgs.map RawMsg.id).getLast? = some last
      ∧ watermark (reconcileOk user now cid msgs st) cid = some last
      ∧ (∀ i ∈ msgs.map RawMsg.id, jsLt last i = false)
      ∧ (reconcileOk user now cid msgs st).notifications.map Notification.id
          = st.notifications.map Notification.id
      ∧ (reconcileOk user now cid msgs st).unreadMessagesCount ≤ st.unreadMessagesCount := by
  have hfm : msgs.map formatMessage ≠ [] := by
    simpa using hne
  have hlatest := List.getLast?_eq_getLast_of_ne_nil hfm
  set latest := (msgs.map formatMessage).getLast hfm with hlatestdef
  have hids : msgs.map RawMsg.id = (msgs.map formatMessage).map Msg.id := by
    rw [List.map_map]
    exact rfl
  have hidlast : (msgs.map RawMsg.id).getLast? = some latest.id := by
    rw [hids, List.getLast?_map, hlatest]
    rfl
  have hkey : st.localStorage (lastSeenKey cid) = none := hnone
  have hrec : reconcileOk user now cid msgs st
      = commitMessages cid (msgs.map formatMessage)
          (markSeenOnOpen cid (msgs.map formatMessage)
            (detectNewMessages user cid now (st.localStorage (lastSeenKey cid))
              (msgs.map formatMessage)
              (establishWatermark cid (st.localStorage (lastSeenKey cid))
                (msgs.map formatMessage) st))) := rfl
  rw [hkey] at hrec
  have hbound : ∀ i ∈ msgs.map RawMsg.id, jsLt latest.id i = false := fun i hi =>
    pairwise_not_above_getLast _ hsorted hidlast i hi
  by_cases hpop : st.showChatPopup = true
  · have hres : reconcileOk user now cid msgs st
        = commitMessages cid (msgs.map formatMessage)
            { st with
              localStorage := setItem st.localStorage (lastSeenKey cid) latest.id
              unreadMessagesCount := 0
              notifications := st.notifications.map (fun n =>
                if n.type = "new_message" ∧ n.data.conversationId = some cid then
                  { n with read := true }
                else n) } := by
      rw [hrec, establishWatermark_of_open _ _ _ hpop,
        detectNewMessages_of_falsy _ _ _ none _ _ rfl,
        markSeenOnOpen_open cid hpop hfm hlatest]
    refine ⟨latest.id, hidlast, ?_, hbound, ?_, ?_⟩
    · rw [show watermark (reconcileOk user now cid msgs st) cid
          = (reconcileOk user now cid msgs st).localStorage (lastSeenKey cid) from rfl, hres]
      exact setItem_self _ _ _
    · rw [hres]
      exact markRead_map_id cid st.notifications
    · rw [hres]
      exact Nat.zero_le _
  · have hpop2 : st.showChatPopup = false := by
      cases h : st.showChatPopup
      · rfl
      · exact absurd h hpop
    have hres : reconcileOk user now cid msgs st
        = commitMessages cid (msgs.map formatMessage)
            { st with localStorage := setItem st.localStorage (lastSeenKey cid) latest.id } := by
      rw [hrec, establishWatermark_write cid none rfl hfm hpop2 hlatest,
        detectNewMessages_of_falsy _ _ _ none _ _ rfl,
        markSeenOnOpen_of_closed _ _ (by exact hpop2)]
    refine ⟨latest.id, hidlast, ?_, hbound, ?_, ?_⟩
    · rw [show watermark (reconcileOk user now cid msgs st) cid
          = (reconcileOk user now cid msgs st).localStorage (lastSeenKey cid) from rfl, hres]
      exact setItem_self _ _ _
    · rw [hres]
      exact rfl
    · rw [hres]
      exact Nat.le_refl _

/-- Witness for C3: first load of `c1` with sorted history `[m1, m2]` and no
stored watermark, for user `uMe`. -/
theorem C3_witness :
    ∃ last, (([rawFrom "m1" "u1", rawFrom "m2" "u1"].map RawMsg.id).getLast? = some last)
      ∧ watermark (reconcileOk (some uMe) "t" "c1"
          [rawFrom "m1" "u1", rawFrom "m2" "u1"] stFresh) "c1" = some last
      ∧ (∀ i ∈ [rawFrom "m1" "u1", rawFrom "m2" "u1"].map RawMsg.id, jsLt last i = false)
      ∧ (reconcileOk (some uMe) "t" "c1"
          [rawFrom "m1" "u1", rawFrom "m2" "u1"] stFresh).notifications.map Notification.id
          = stFresh.notifications.map Notification.id
      ∧ (reconcileOk (some uMe) "t" "c1"
          [rawFrom "m1" "u1", rawFrom "m2" "u1"] stFresh).unreadMessagesCount
          ≤ stFresh.unreadMessagesCount :=
  C3_first_load_is_silent (some uMe) "t" "c1" [rawFrom "m1" "u1", rawFrom "m2" "u1"] stFresh
    rfl (by decide) (by decide)

/-- C5 as stated is false: after a WebSocket-delivered message created a
pending notification scoped to `c1` and the user opens the conversation, that
notification (typed `comment_added` by the push path) is still unread. -/
theorem C5_counterexample :
    ∃ n ∈ (applyOps [Op.wsDeliver "1000" "t0" (.chatMessage wsM1), Op.togglePopup,
        Op.reconcile "t1" "c1" (.ok [rawFrom "m1" "u1"])] stBase).notifications,
      n.data.conversation_id = some "c1" ∧ n.read = false := by decide

/-- C5 (amended): opening a conversation (chat popup shown) and reconciling
resets the unread counter to 0, advances the stored watermark to the newest
fetched message identifier, and marks read exactly the poll-created
notifications for that conversation (type `new_message` with a matching
`conversationId`); push-created `comment_added` notifications are left as
they are.  The floating button itself also zeroes the counter on open. -/
theorem C5_open_marks_seen (user : Option User) (now cid : String)
    (msgs : List RawMsg) (st : AppState) (latest : Msg)
    (hopen : st.showChatPopup = true)
    (hlast : (msgs.map formatMessage).getLast? = some latest) :
    ((reconcileOk user now cid msgs st).unreadMessagesCount = 0
      ∧ watermark (reconcileOk user now cid msgs st) cid = some latest.id
      ∧ (reconcileOk user now cid msgs st).notifications
          = st.notifications.map (fun n =>
              if n.type = "new_message" ∧ n.data.conversationId = some cid then
                { n with read := true }
              else n))
    ∧ (∀ st2 : AppState, st2.showChatPopup = false →
        (toggleChatPopup st2).unreadMessagesCount = 0
          ∧ (toggleChatPopup st2).showChatPopup = true) := by
  have hfm : msgs.map formatMessage ≠ [] := by
    intro h
    rw [h] at hlast
    simp at hlast
  have hrec : reconcileOk user now cid msgs st
      = commitMessages cid (msgs.map formatMessage)
          (markSeenOnOpen cid (msgs.map formatMessage)
            (detectNewMessages user cid now (st.localStorage (lastSeenKey cid))
              (msgs.map formatMessage)
              (establishWatermark cid (st.localStorage (lastSeenKey cid))
                (msgs.map formatMessage) st))) := rfl
  have hres : reconcileOk user now cid msgs st
      = commitMessages cid (msgs.map formatMessage)
          { st with
            localStorage := setItem st.localStorage (lastSeenKey cid) latest.id
            unreadMessagesCount := 0
            notifications := st.notifications.map (fun n =>
              if n.type = "new_message" ∧ n.data.conversationId = some cid then
                { n with read := true }
              else n) } := by
    rw [hrec, establishWatermark_of_open _ _ _ hopen,
      detectNewMessages_of_open _ _ _ _ _ hopen,
      markSeenOnOpen_open cid hopen hfm hlast]
  refine ⟨⟨?_, ?_, ?_⟩, ?_⟩
  · rw [hres]
    exact rfl
  · rw [show watermark (reconcileOk user now cid msgs st) cid
        = (reconcileOk user now cid msgs st).localStorage (lastSeenKey cid) from rfl, hres]
    exact setItem_self _ _ _
  · rw [hres]
    exact rfl
  · intro st2 h2
    unfold toggleChatPopup
    rw [if_pos h2]
    exact ⟨rfl, by simp [h2]⟩

/-- Witness for C5: popup open on `c1` with watermark `m5`, reconciling a
fetch of `[m6]`. -/
theorem C5_witness :
    ((reconcileOk (some uMe) "t" "c1" [rawFrom "m6" "u1"] stOpen5).unreadMessagesCount = 0
      ∧ watermark (reconcileOk (some uMe) "t" "c1" [rawFrom "m6" "u1"] stOpen5) "c1"
          = some (formatMessage (rawFrom "m6" "u1")).id
      ∧ (reconcileOk (some uMe) "t" "c1" [rawFrom "m6" "u1"] stOpen5).notifications
          = stOpen5.notifications.map (fun n =>
              if n.type = "new_message" ∧ n.data.conversationId = some "c1" then
                { n with read := true }
              else n))
    ∧ (∀ st2 : AppState, st2.showChatPopup = false →
        (toggleChatPopup st2).unreadMessagesCount = 0
          ∧ (toggleChatPopup st2).showChatPopup = true) :=
  C5_open_marks_seen (some uMe) "t" "c1" [rawFrom "m6" "u1"] stOpen5
    (formatMessage (rawFrom "m6" "u1")) rfl rfl

theorem detectNewMessages_notif_from_other (user : Option User) (cid now : String)
    (ls : Option String) (fm : List Msg) (st : AppState) (x : String)
    (hx : x ∈ (detectNewMessages user cid now ls fm st).notifications.map Notification.id) :
    x ∈ st.notifications.map Notification.id
      ∨ ∃ m ∈ fm, isFromOtherUser user m = true ∧ x = notifKeyOf m := by
  unfold detectNewMessages at hx
  split at hx
  · rcases foldl_notifStep_sub user cid now (ls.getD "") fm st.notifications 0 x hx
      with h | ⟨m, hm, hnew, hk⟩
    · exact Or.inl h
    · refine Or.inr ⟨m, hm, ?_, hk⟩
      unfold isNewFor at hnew
      exact (Bool.and_eq_true _ _ ▸ hnew).1
  · exact Or.inl hx

theorem reconcileOk_notif_from_other (user : Option User) (now cid : String)
    (msgs : List RawMsg) (st : AppState) (x : String)
    (hx : x ∈ (reconcileOk user now cid msgs st).notifications.map Notification.id) :
    x ∈ st.notifications.map Notification.id
      ∨ ∃ r ∈ msgs, isFromOtherUser user (formatMessage r) = true
          ∧ x = notifKeyOf (formatMessage r) := by
  have hrec : (reconcileOk user now cid msgs st).notifications.map Notification.id
      = (markSeenOnOpen cid (msgs.map formatMessage)
          (detectNewMessages user cid now (st.localStorage (lastSeenKey cid))
            (msgs.map formatMessage)
            (establishWatermark cid (st.localStorage (lastSeenKey cid))
              (msgs.map formatMessage) st))).notifications.map Notification.id := rfl
  rw [hrec, markSeenOnOpen_notif_ids] at hx
  rcases detectNewMessages_notif_from_other _ _ _ _ _ _ _ hx with h | ⟨m, hm, ho, hk⟩
  · rw [establishWatermark_notifications] at h
    exact Or.inl h
  · obtain ⟨r, hr, hfr⟩ := List.mem_map.mp hm
    exact Or.inr ⟨r, hr, by rw [hfr]; exact ho, by rw [hfr]; exact hk⟩

theorem detectNewMessages_no_new (user : Option User) (cid now : String)
    (ls : Option String) (fm : List Msg) (st : AppState)
    (hf : ∀ w : String, fm.filter (isNewFor user w) = []) :
    detectNewMessages user cid now ls fm st = st := by
  unfold detectNewMessages
  split
  · show { st with
        notifications := (fm.foldl (notifStep user cid now (ls.getD "")) (st.notifications, 0)).1
        unreadMessagesCount := st.unreadMessagesCount
          + (fm.foldl (notifStep user cid now (ls.getD "")) (st.notifications, 0)).2 } = st
    rw [foldl_notifStep_stale user cid now (ls.getD "") fm st.notifications 0
      (by rw [hf (ls.getD "")]; intro k hk; simp at hk)]
    exact rfl
  · rfl

theorem reconcileOk_all_self (user : Option User) (now cid : String)
    (msgs : List RawMsg) (st : AppState)
    (hall : ∀ r ∈ msgs, isFromOtherUser user (formatMessage r) = false) :
    (reconcileOk user now cid msgs st).notifications.map Notification.id
        = st.notifications.map Notification.id
      ∧ (reconcileOk user now cid msgs st).unreadMessagesCount ≤ st.unreadMessagesCount := by
  have hf : ∀ w : String, (msgs.map formatMessage).filter (isNewFor user w) = [] := by
    intro w
    rw [List.filter_eq_nil_iff]
    intro m hm
    obtain ⟨r, hr, hfr⟩ := List.mem_map.mp hm
    rw [← hfr]
    simp [isNewFor, hall r hr]
  have hD := detectNewMessages_no_new user cid now (st.localStorage (lastSeenKey cid))
    (msgs.map formatMessage)
    (establishWatermark cid (st.localStorage (lastSeenKey cid)) (msgs.map formatMessage) st) hf
  constructor
  · have h1 : (reconcileOk user now cid msgs st).notifications.map Notification.id
        = (markSeenOnOpen cid (msgs.map formatMessage)
            (detectNewMessages user cid now (st.localStorage (lastSeenKey cid))
              (msgs.map formatMessage)
              (establishWatermark cid (st.localStorage (lastSeenKey cid))
                (msgs.map formatMessage) st))).notifications.map Notification.id := rfl
    rw [h1, markSeenOnOpen_notif_ids, hD, establishWatermark_notifications]
  · have h2 : (reconcileOk user now cid msgs st).unreadMessagesCount
        = (markSeenOnOpen cid (msgs.map formatMessage)
            (detectNewMessages user cid now (st.localStorage (lastSeenKey cid))
              (msgs.map formatMessage)
              (establishWatermark cid (st.localStorage (lastSeenKey cid))
                (msgs.map formatMessage) st))).unreadMessagesCount := rfl
    rw [h2, hD]
    calc (markSeenOnOpen cid (msgs.map formatMessage)
            (establishWatermark cid (st.localStorage (lastSeenKey cid))
              (msgs.map formatMessage) st)).unreadMessagesCount
        ≤ (establishWatermark cid (st.localStorage (lastSeenKey cid))
            (msgs.map formatMessage) st).unreadMessagesCount := markSeenOnOpen_unread_le _ _ _
      _ = st.unreadMessagesCount := establishWatermark_unread _ _ _ _

/-- C6: a message whose sender identifier equals the current user's never
produces a notification and never increments the unread counter, on both
paths: the WebSocket echo handler leaves the state untouched for an own
message; on the poll path every notification a reconcile creates stems from
a message classified as another user's, and a fetch consisting only of own
messages leaves the notification list unchanged and cannot raise the unread
counter. -/
theorem C6_own_messages_never_notify :
    (∀ (nowId nowIso : String) (m : WsMessage) (st : AppState) (u : User),
        st.user = some u → m.sender_id = some u.id →
        appOnMessage nowId nowIso (.chatMessage m) st = st)
    ∧ (∀ (user : Option User) (now cid : String) (msgs : List RawMsg) (st : AppState) (x : String),
        x ∈ (reconcileOk user now cid msgs st).notifications.map Notification.id →
        x ∈ st.notifications.map Notification.id
          ∨ ∃ r ∈ msgs, isFromOtherUser user (formatMessage r) = true
              ∧ x = notifKeyOf (formatMessage r))
    ∧ (∀ (user : Option User) (now cid : String) (msgs : List RawMsg) (st : AppState),
        (∀ r ∈ msgs, isFromOtherUser user (formatMessage r) = false) →
        (reconcileOk user now cid msgs st).notifications.map Notification.id
            = st.notifications.map Notification.id
          ∧ (reconcileOk user now cid msgs st).unreadMessagesCount ≤ st.unreadMessagesCount) := by
  refine ⟨?_, ?_, ?_⟩
  · intro nowId nowIso m st u hu hm
    have hred : appOnMessage nowId nowIso (.chatMessage m) st = wsChatMessage nowId nowIso m st := rfl
    rw [hred]
    unfold wsChatMessage
    rw [if_neg (by rw [hu, hm]; simp [wsFromOther])]
  · intro user now cid msgs st x hx
    exact reconcileOk_notif_from_other user now cid msgs st x hx
  · intro user now cid msgs st hall
    exact reconcileOk_all_self user now cid msgs st hall

/-- Witness for C6: an own-message WebSocket echo is a no-op; a poll-created
notification key always traces back to another user's fetched message; a
fetch consisting only of own messages changes nothing. -/
theorem C6_witness :
    (appOnMessage "1" "t" (.chatMessage { id := "mx", content := "c", sender_id := some "u0" }) stBase = stBase)
    ∧ (notifKeyOf (formatMessage (rawFrom "m1" "u1")) ∈ stBase.notifications.map Notification.id
        ∨ ∃ r ∈ [rawFrom "m1" "u1"], isFromOtherUser (some uMe) (formatMessage r) = true
            ∧ notifKeyOf (formatMessage (rawFrom "m1" "u1")) = notifKeyOf (formatMessage r))
    ∧ ((reconcileOk (some uMe) "t" "c1" [rawFrom "m1" "u0"] stBase).notifications.map Notification.id
          = stBase.notifications.map Notification.id
        ∧ (reconcileOk (some uMe) "t" "c1" [rawFrom "m1" "u0"] stBase).unreadMessagesCount
          ≤ stBase.unreadMessagesCount) :=
  ⟨C6_own_messages_never_notify.1 "1" "t" _ stBase uMe rfl rfl,
   C6_own_messages_never_notify.2.1 (some uMe) "t" "c1" [rawFrom "m1" "u1"] stBase _ (by decide),
   C6_own_messages_never_notify.2.2 (some uMe) "t" "c1" [rawFrom "m1" "u0"] stBase (by decide)⟩

/-- C4 as stated is false: with the chat closed and a watermark present,
three distinct other-user messages one of which is also delivered by
WebSocket push yield four notification entries, not three — the push path
creates its own `Date.now()`-keyed `comment_added` entry (and never touches
the unread counter), so a message delivered via push and re-fetched via poll
is notified twice. -/
theorem C4_counterexample :
    ((applyOps [Op.wsDeliver "1000" "t0" (.chatMessage wsM1),
        Op.reconcile "t1" "c1" (.ok [rawFrom "m1" "u1", rawFrom "m2" "u1", rawFrom "m3" "u1"])]
        stBase).notifications.length = 4)
    ∧ ((applyOps [Op.wsDeliver "1000" "t0" (.chatMessage wsM1),
        Op.reconcile "t1" "c1" (.ok [rawFrom "m1" "u1", rawFrom "m2" "u1", rawFrom "m3" "u1"])]
        stBase).unreadMessagesCount = 3) := by decide

/-- C4 (amended): counting holds on the poll path alone.  With the chat
closed and a truthy stored watermark, a reconcile creates exactly one
`msg_<id>`-keyed notification per distinct not-yet-notified new other-user
message and adds exactly that count to the unread counter; and a reconcile
all of whose new messages are already notified changes neither the
notification list nor the counter, so a re-fetched message never yields a
second poll notification.  (The WebSocket push path instead creates a
separately keyed `comment_added` notification and never increments the
counter, so mixed delivery can exceed one entry per message.) -/
theorem C4_poll_notification_count :
    (∀ (user : Option User) (now cid w : String) (msgs : List RawMsg) (st : AppState),
      st.showChatPopup = false → watermark st cid = some w → w ≠ "" → msgs ≠ [] →
      ((fmNew user w msgs).map notifKeyOf).Nodup →
      (∀ k ∈ (fmNew user w msgs).map notifKeyOf, k ∉ st.notifications.map Notification.id) →
      (reconcileOk user now cid msgs st).unreadMessagesCount
          = st.unreadMessagesCount + (fmNew user w msgs).length
        ∧ (reconcileOk user now cid msgs st).notifications.length
          = st.notifications.length + (fmNew user w msgs).length
        ∧ ∀ m ∈ fmNew user w msgs,
            notifKeyOf m ∈ (reconcileOk user now cid msgs st).notifications.map Notification.id)
    ∧ (∀ (user : Option User) (now cid w : String) (msgs : List RawMsg) (st : AppState),
      st.showChatPopup = false → watermark st cid = some w → w ≠ "" → msgs ≠ [] →
      (∀ k ∈ (fmNew user w msgs).map notifKeyOf, k ∈ st.notifications.map Notification.id) →
      (reconcileOk user now cid msgs st).notifications = st.notifications
        ∧ (reconcileOk user now cid msgs st).unreadMessagesCount = st.unreadMessagesCount) := by
  constructor
  · intro user now cid w msgs st hpop hwm hw hne hnodup hfresh
    have hfm : msgs.map formatMessage ≠ [] := by simpa using hne
    have hkey : st.localStorage (lastSeenKey cid) = some w := hwm
    have htr : jsTruthy (some w) = true := by simp [jsTruthy, hw]
    have hrec : reconcileOk user now cid msgs st
        = commitMessages cid (msgs.map formatMessage)
            (markSeenOnOpen cid (msgs.map formatMessage)
              (detectNewMessages user cid now (st.localStorage (lastSeenKey cid))
                (msgs.map formatMessage)
                (establishWatermark cid (st.localStorage (lastSeenKey cid))
                  (msgs.map formatMessage) st))) := rfl
    rw [hkey, establishWatermark_of_truthy cid (some w) _ _ htr,
      detectNewMessages_run user cid now hpop hfm hw,
      markSeenOnOpen_of_closed cid _ (by exact hpop)] at hrec
    obtain ⟨hids, hcnt⟩ := foldl_notifStep_fresh user cid now w (msgs.map formatMessage)
      st.notifications 0 hnodup hfresh
    refine ⟨?_, ?_, ?_⟩
    · rw [hrec]
      show st.unreadMessagesCount
          + ((msgs.map formatMessage).foldl (notifStep user cid now w) (st.notifications, 0)).2
        = st.unreadMessagesCount + (fmNew user w msgs).length
      rw [hcnt]
      show st.unreadMessagesCount
          + (0 + ((msgs.map formatMessage).filter (isNewFor user w)).length)
        = st.unreadMessagesCount + ((msgs.map formatMessage).filter (isNewFor user w)).length
      omega
    · rw [hrec]
      have h3 := congrArg List.length hids
      simp only [List.length_map, List.length_append, List.length_reverse] at h3
      show ((msgs.map formatMessage).foldl (notifStep user cid now w) (st.notifications, 0)).1.length
        = st.notifications.length + ((msgs.map formatMessage).filter (isNewFor user w)).length
      omega
    · intro m hm
      rw [hrec]
      show notifKeyOf m
        ∈ ((msgs.map formatMessage).foldl (notifStep user cid now w) (st.notifications, 0)).1.map Notification.id
      rw [hids]
      refine List.mem_append.mpr (Or.inl ?_)
      rw [List.mem_reverse]
      exact List.mem_map_of_mem notifKeyOf hm
  · intro user now cid w msgs st hpop hwm hw hne hstale
    have hfm : msgs.map formatMessage ≠ [] := by simpa using hne
    have hkey : st.localStorage (lastSeenKey cid) = some w := hwm
    have htr : jsTruthy (some w) = true := by simp [jsTruthy, hw]
    have hrec : reconcileOk user now cid msgs st
        = commitMessages cid (msgs.map formatMessage)
            (markSeenOnOpen cid (msgs.map formatMessage)
              (detectNewMessages user cid now (st.localStorage (lastSeenKey cid))
                (msgs.map formatMessage)
                (establishWatermark cid (st.localStorage (lastSeenKey cid))
                  (msgs.map formatMessage) st))) := rfl
    rw [hkey, establishWatermark_of_truthy cid (some w) _ _ htr,
      detectNewMessages_run user cid now hpop hfm hw,
      foldl_notifStep_stale user cid now w (msgs.map formatMessage) st.notifications 0 hstale,
      markSeenOnOpen_of_closed cid _ (by exact hpop)] at hrec
    rw [hrec]
    exact ⟨rfl, rfl⟩

/-- Witness for C4: three fresh messages past the watermark add 3 to the unread
counter and create three uniquely keyed notifications; re-fetching an
already-notified message changes nothing. -/
theorem C4_witness :
    ((reconcileOk (some uMe) "t1" "c1"
          [rawFrom "m1" "u1", rawFrom "m2" "u1", rawFrom "m3" "u1"] stBase).unreadMessagesCount
        = stBase.unreadMessagesCount
          + (fmNew (some uMe) "m0" [rawFrom "m1" "u1", rawFrom "m2" "u1", rawFrom "m3" "u1"]).length
      ∧ (reconcileOk (some uMe) "t1" "c1"
          [rawFrom "m1" "u1", rawFrom "m2" "u1", rawFrom "m3" "u1"] stBase).notifications.length
        = stBase.notifications.length
          + (fmNew (some uMe) "m0" [rawFrom "m1" "u1", rawFrom "m2" "u1", rawFrom "m3" "u1"]).length
      ∧ ∀ m ∈ fmNew (some uMe) "m0" [rawFrom "m1" "u1", rawFrom "m2" "u1", rawFrom "m3" "u1"],
          notifKeyOf m ∈ (reconcileOk (some uMe) "t1" "c1"
            [rawFrom "m1" "u1", rawFrom "m2" "u1", rawFrom "m3" "u1"] stBase).notifications.map Notification.id)
    ∧ ((reconcileOk (some uMe) "t2" "c1" [rawFrom "m1" "u1"] stNotified).notifications
          = stNotified.notifications
      ∧ (reconcileOk (some uMe) "t2" "c1" [rawFrom "m1" "u1"] stNotified).unreadMessagesCount
          = stNotified.unreadMessagesCount) :=
  ⟨C4_poll_notification_count.1 (some uMe) "t1" "c1" "m0"
      [rawFrom "m1" "u1", rawFrom "m2" "u1", rawFrom "m3" "u1"] stBase
      rfl rfl (by decide) (by decide) (by decide) (by decide),
   C4_poll_notification_count.2 (some uMe) "t2" "c1" "m0" [rawFrom "m1" "u1"] stNotified
      rfl rfl (by decide) (by decide) (by decide)⟩

theorem formatted_ids (msgs : List RawMsg) :
    (msgs.map formatMessage).map Msg.id = msgs.map RawMsg.id := by
  rw [List.map_map]
  exact rfl

theorem chatApplyLiveMessage_messages (u : Option User) (m : WsMessage) (st : ChatState) :
    (chatApplyLiveMessage u m st).messages
      = if st.messages.any (fun x => x.id == m.id) then st.messages
        else st.messages ++ [m] := by
  by_cases h1 : st.messages.any (fun x => x.id == m.id) = true <;>
    by_cases h2 : wsFromOther u m.sender_id = true <;>
    simp [chatApplyLiveMessage, h1, h2]

theorem chatOnMessage_nodup (u : Option User) (ev : WsEvent) (st : ChatState)
    (h : (st.messages.map WsMessage.id).Nodup) :
    ((chatOnMessage u ev st).messages.map WsMessage.id).Nodup := by
  cases ev with
  | chatMessage m =>
    have hm : (chatOnMessage u (.chatMessage m) st).messages
        = (chatApplyLiveMessage u m st).messages := rfl
    rw [hm, chatApplyLiveMessage_messages]
    by_cases h1 : st.messages.any (fun x => x.id == m.id) = true
    · rw [if_pos h1]
      exact h
    · rw [if_neg h1]
      have hmem : m.id ∉ st.messages.map WsMessage.id := by
        intro hmm
        apply h1
        rw [List.any_eq_true]
        obtain ⟨x, hx, hxe⟩ := List.mem_map.mp hmm
        exact ⟨x, hx, beq_iff_eq.mpr hxe⟩
      rw [List.map_append]
      refine List.Nodup.append h (List.nodup_singleton _) ?_
      intro x hx hx2
      simp only [List.map_cons, List.map_nil, List.mem_singleton] at hx2
      exact hmem (hx2 ▸ hx)
  | userTyping uid =>
    show (((if wsFromOther u (some uid) = true
        then { st with typingUsers := st.typingUsers.filter (fun i => i ≠ uid) ++ [uid] }
        else st) : ChatState).messages.map WsMessage.id).Nodup
    split <;> exact h
  | userOnline uid => exact h
  | userOffline uid => exact h
  | messageDeleted mid =>
    have hs : ((st.messages.filter (fun x => x.id ≠ mid)).map WsMessage.id).Sublist
        (st.messages.map WsMessage.id) :=
      (List.filter_sublist st.messages).map WsMessage.id
    exact h.sublist hs
  | otherEvent => exact h
  | malformed => exact h

/-- C1 as stated is false: `sendMessageAPI` appends the POST echo with no
duplicate check, so a message first delivered by the poll and then appended
by a send appears twice in the local list. -/
theorem C1_counterexample :
    ((applyOps [Op.reconcile "t" "c1" (.ok [rawFrom "m1" "u1"]),
        Op.send "c1" (rawFrom "m1" "u1")] stFresh).chatMessages.map Msg.id = ["m1", "m1"])
    ∧ ¬ ((applyOps [Op.reconcile "t" "c1" (.ok [rawFrom "m1" "u1"]),
        Op.send "c1" (rawFrom "m1" "u1")] stFresh).chatMessages.map Msg.id).Nodup := by
  exact ⟨by decide, by decide⟩

/-- C1 (amended): restricted to reconciles (delivering duplicate-free raw id
lists) and live WebSocket deliveries — excluding `sendMessageAPI`, whose
unchecked append can duplicate — every interleaving keeps each message
identifier at most once in the local list: in the App component reconcile
replaces the list wholesale and the WebSocket handler never appends; in the
Chat component loads replace the list and the socket handler appends only
identifiers not already present. -/
theorem C1_no_duplicates_without_sends :
    (∀ (ops : List Op) (st : AppState),
      (∀ op ∈ ops, DedupSafe op) →
      (st.chatMessages.map Msg.id).Nodup →
      ((applyOps ops st).chatMessages.map Msg.id).Nodup)
    ∧ (∀ (u : Option User) (ops : List ChatOp) (st : ChatState),
      (∀ op ∈ ops, ChatDedupSafe op) →
      (st.messages.map WsMessage.id).Nodup →
      ((applyChatOps u ops st).messages.map WsMessage.id).Nodup) := by
  constructor
  · intro ops
    induction ops with
    | nil => intro st _ h; exact h
    | cons op ops ih =>
      intro st hsafe h
      have hsafe1 := hsafe op (List.mem_cons_self _ _)
      have hrest : ∀ o ∈ ops, DedupSafe o := fun o ho => hsafe o (List.mem_cons_of_mem _ ho)
      show ((applyOps ops (applyOp op st)).chatMessages.map Msg.id).Nodup
      apply ih _ hrest
      cases op with
      | reconcile now cid resp =>
        cases resp with
        | ok msgs =>
          show (((msgs.map formatMessage)).map Msg.id).Nodup
          rw [formatted_ids]
          exact hsafe1
        | error e => exact h
      | wsDeliver a b ev =>
        show (((appOnMessage a b ev st).chatMessages).map Msg.id).Nodup
        rw [(appOnMessage_frame a b ev st).2.1]
        exact h
      | send cid r => exact hsafe1.elim
      | togglePopup =>
        show (((toggleChatPopup st).chatMessages).map Msg.id).Nodup
        rw [(toggleChatPopup_frame st).2.1]
        exact h
  · intro u ops
    induction ops with
    | nil => intro st _ h; exact h
    | cons op ops ih =>
      intro st hsafe h
      have hsafe1 := hsafe op (List.mem_cons_self _ _)
      have hrest : ∀ o ∈ ops, ChatDedupSafe o := fun o ho => hsafe o (List.mem_cons_of_mem _ ho)
      show ((applyChatOps u ops (applyChatOp u op st)).messages.map WsMessage.id).Nodup
      apply ih _ hrest
      cases op with
      | load resp =>
        cases resp with
        | ok ms => exact hsafe1
        | error e =>
          show (([] : List WsMessage).map WsMessage.id).Nodup
          simp
      | socket ev => exact chatOnMessage_nodup u ev st h

/-- Witness for C1: a duplicate-free fetch followed by a push re-delivering
`m1` leaves the App list duplicate-free, and a Chat-component load of `[m1]`
followed by a push re-delivering `m1` stays duplicate-free too. -/
theorem C1_witness :
    ((applyOps [Op.reconcile "t" "c1" (.ok [rawFrom "m1" "u1", rawFrom "m2" "u1"]),
        Op.wsDeliver "1" "t" (.chatMessage wsM1)] stFresh).chatMessages.map Msg.id).Nodup
    ∧ ((applyChatOps (some uMe) [ChatOp.load (.ok [wsM1]), ChatOp.socket (.chatMessage wsM1)]
        {}).messages.map WsMessage.id).Nodup :=
  ⟨C1_no_duplicates_without_sends.1 _ stFresh
      (by
        intro op hop
        simp only [List.mem_cons, List.not_mem_nil, or_false] at hop
        rcases hop with rfl | rfl
        · exact (by decide : ((["m1", "m2"] : List String)).Nodup)
        · trivial)
      (by decide),
   C1_no_duplicates_without_sends.2 (some uMe) _ {}
      (by
        intro op hop
        simp only [List.mem_cons, List.not_mem_nil, or_false] at hop
        rcases hop with rfl | rfl
        · exact (by decide : ((["m1"] : List String)).Nodup)
        · trivial)
      (by decide)⟩

theorem wmNotRegressed_refl (a : Option String) : wmNotRegressed a a :=
  fun w h => ⟨w, h, jsLt_irrefl w⟩

theorem wmNotRegressed_trans {a b c : Option String}
    (h1 : wmNotRegressed a b) (h2 : wmNotRegressed b c) : wmNotRegressed a c := by
  intro w hw
  obtain ⟨w2, hb, h12⟩ := h1 w hw
  obtain ⟨w3, hc, h23⟩ := h2 w2 hb
  exact ⟨w3, hc, jsLt_not_above_trans h12 h23⟩

theorem establishWatermark_storage_other (c : String) (ls : Option String)
    (fm : List Msg) (st : AppState) (k : String) (hk : k ≠ lastSeenKey c) :
    (establishWatermark c ls fm st).localStorage k = st.localStorage k := by
  unfold establishWatermark
  split
  · split
    · exact setItem_ne _ _ _ _ hk
    · rfl
  · rfl

theorem markSeenOnOpen_storage_other (c : String) (fm : List Msg) (st : AppState)
    (k : String) (hk : k ≠ lastSeenKey c) :
    (markSeenOnOpen c fm st).localStorage k = st.localStorage k := by
  unfold markSeenOnOpen
  split
  · split
    · exact setItem_ne _ _ _ _ hk
    · rfl
  · rfl

/-- A successful reconcile either leaves a conversation's watermark alone or
(only for the reconciled conversation itself) writes the newest formatted
fetched message's identifier. -/
theorem reconcileOk_watermark_cases (user : Option User) (now c : String)
    (msgs : List RawMsg) (st : AppState) (cid : String) :
    watermark (reconcileOk user now c msgs st) cid = watermark st cid
      ∨ (c = cid ∧ ∃ latest, (msgs.map formatMessage).getLast? = some latest
          ∧ watermark (reconcileOk user now c msgs st) cid = some latest.id) := by
  have hrec : watermark (reconcileOk user now c msgs st) cid
      = (markSeenOnOpen c (msgs.map formatMessage)
          (detectNewMessages user c now (st.localStorage (lastSeenKey c))
            (msgs.map formatMessage)
            (establishWatermark c (st.localStorage (lastSeenKey c))
              (msgs.map formatMessage) st))).localStorage (lastSeenKey cid) := rfl
  by_cases hc : c = cid
  case neg =>
    left
    have hk : lastSeenKey cid ≠ lastSeenKey c := fun h => hc (lastSeenKey_inj h).symm
    rw [hrec, markSeenOnOpen_storage_other _ _ _ _ hk, detectNewMessages_localStorage,
      establishWatermark_storage_other _ _ _ _ _ hk]
    rfl
  case pos =>
    subst hc
    cases hl : (msgs.map formatMessage).getLast? with
    | none =>
      left
      have hnil : msgs.map formatMessage = [] := by
        cases hmm : msgs.map formatMessage with
        | nil => rfl
        | cons a l =>
          rw [hmm] at hl
          simp [List.getLast?_eq_getLast_of_ne_nil] at hl
      rw [hrec, hnil, markSeenOnOpen_of_nil, detectNewMessages_of_nil, establishWatermark_of_nil]
      rfl
    | some latest =>
      have hne : msgs.map formatMessage ≠ [] := by
        intro hmm
        rw [hmm] at hl
        simp at hl
      by_cases hpop : st.showChatPopup = true
      · right
        refine ⟨rfl, latest, rfl, ?_⟩
        rw [hrec, establishWatermark_of_open _ _ _ hpop,
          detectNewMessages_of_open _ _ _ _ _ hpop,
          markSeenOnOpen_open c hpop hne hl]
        exact setItem_self _ _ _
      · have hpop2 : st.showChatPopup = false := by
          cases hb : st.showChatPopup
          · rfl
          · exact absurd hb hpop
        cases ht : jsTruthy (st.localStorage (lastSeenKey c)) with
        | true =>
          left
          rw [hrec, establishWatermark_of_truthy _ _ _ _ ht]
          rw [markSeenOnOpen_of_closed _ _ (by
            rw [detectNewMessages_popup]
            exact hpop2), detectNewMessages_localStorage]
          rfl
        | false =>
          right
          refine ⟨rfl, latest, rfl, ?_⟩
          rw [hrec, establishWatermark_write c _ ht hne hpop2 hl]
          rw [markSeenOnOpen_of_closed _ _ (by
            rw [detectNewMessages_popup]
            exact hpop2), detectNewMessages_localStorage]
          exact setItem_self _ _ _

/-- One operation cannot lower a stored watermark when its `FetchFresh` side
condition holds: reconciles write only the newest fetched identifier (which
the condition places at or above the stored watermark), and WebSocket
deliveries, sends and popup toggles never write the store at all. -/
theorem watermark_step_no_regress (cid : String) (op : Op) (st : AppState)
    (h : FetchFresh cid op st) :
    wmNotRegressed (watermark st cid) (watermark (applyOp op st) cid) := by
  cases op with
  | reconcile now c resp =>
    cases resp with
    | ok msgs =>
      show wmNotRegressed (watermark st cid) (watermark (reconcileOk st.user now c msgs st) cid)
      rcases reconcileOk_watermark_cases st.user now c msgs st cid with heq | ⟨hc, latest, hl, hw⟩
      · rw [heq]
        exact wmNotRegressed_refl _
      · intro w hww
        exact ⟨latest.id, hw, h hc w latest hww hl⟩
    | error e => exact wmNotRegressed_refl _
  | wsDeliver a b ev =>
    have h2 : watermark (appOnMessage a b ev st) cid = watermark st cid :=
      congrArg (fun f => f (lastSeenKey cid)) (appOnMessage_frame a b ev st).1
    show wmNotRegressed (watermark st cid) (watermark (appOnMessage a b ev st) cid)
    rw [h2]
    exact wmNotRegressed_refl _
  | send c r => exact wmNotRegressed_refl _
  | togglePopup =>
    have h2 : watermark (toggleChatPopup st) cid = watermark st cid :=
      congrArg (fun f => f (lastSeenKey cid)) (toggleChatPopup_frame st).1
    show wmNotRegressed (watermark st cid) (watermark (toggleChatPopup st) cid)
    rw [h2]
    exact wmNotRegressed_refl _

/-- C2 as stated is false: with the chat popup open, a reconcile writes the
newest fetched identifier unconditionally, so a fetch whose newest message
sorts below the stored watermark (for example after the newest message was
deleted server-side) overwrites `m5` with the lower `m3`. -/
theorem C2_counterexample :
    watermark stOpen5 "c1" = some "m5"
      ∧ watermark (applyOp (.reconcile "t" "c1" (.ok [rawFrom "m3" "u1"])) stOpen5) "c1"
          = some "m3"
      ∧ jsLt "m3" "m5" = true := by
  exact ⟨by decide, by decide, by decide⟩

/-- C2 (amended): the stored per-conversation watermark never regresses
across any sequence of reconcile, live-message, send and popup operations,
provided every successful reconcile of that conversation fetches a list
whose newest formatted message identifier sorts at or above the currently
stored watermark.  (The code enforces no such guard itself: the popup-open
path rewrites the newest fetched identifier unconditionally, including an
identifier equal to the stored one on every poll.) -/
theorem C2_watermark_no_regress (cid : String) (ops : List Op) (st : AppState)
    (h : FetchFreshTrace cid ops st) :
    wmNotRegressed (watermark st cid) (watermark (applyOps ops st) cid) := by
  induction ops generalizing st with
  | nil => exact wmNotRegressed_refl _
  | cons op ops ih =>
    obtain ⟨h1, h2⟩ := h
    exact wmNotRegressed_trans (watermark_step_no_regress cid op st h1) (ih (applyOp op st) h2)

/-- Witness for C2: a fresh fetch of `m1` over the stored watermark `m0`
satisfies the side condition, and the watermark does not regress. -/
theorem C2_witness :
    FetchFreshTrace "c1" [Op.reconcile "t" "c1" (.ok [rawFrom "m1" "u1"])] stBase
      ∧ wmNotRegressed (watermark stBase "c1")
          (watermark (applyOps [Op.reconcile "t" "c1" (.ok [rawFrom "m1" "u1"])] stBase) "c1") := by
  have htr : FetchFreshTrace "c1" [Op.reconcile "t" "c1" (.ok [rawFrom "m1" "u1"])] stBase := by
    refine ⟨?_, trivial⟩
    intro _ w latest hw hl
    have hw2 : some "m0" = some w := hw
    have hl2 : some (formatMessage (rawFrom "m1" "u1")) = some latest := hl
    cases hw2
    cases hl2
    decide
  exact ⟨htr, C2_watermark_no_regress "c1" _ stBase htr⟩

/-- Witness for C10 at the concrete senderless message `m1` and user `uMe`. -/
theorem C10_witness :
    (formatMessage (rawSenderless "m1")).userId = ""
      ∧ isFromOtherUser (some uMe) (formatMessage (rawSenderless "m1")) = true :=
  ⟨C10_senderless_counts_as_other.1 (rawSenderless "m1") rfl rfl rfl,
   C10_senderless_counts_as_other.2.1 uMe (formatMessage (rawSenderless "m1")) (by decide)
     (C10_senderless_counts_as_other.1 (rawSenderless "m1") rfl rfl rfl)⟩

end MissedTask
